import Mathlib

/-!
Verification of the posting-scheduler bot (`src/bot.py`).

Python strings are modelled as lists of Unicode code points (`Str`), which
matches Python's `len`, slicing and `in` semantics on `str` values.  Pure
functions of the source (`clean_html`, `create_tweet_text`, the image-pipeline
wrappers) are translated directly; external collaborators (HTTP requests, the
tweepy client, the random module, `time.time`) are supplied as explicit
oracle inputs carrying either a response value or a raised exception, and one
iteration of the `run_bot` loop body becomes the pure step function
`run_bot_cycle`.
-/

/-- A Python `str`: a sequence of Unicode code points. -/
abbrev Str := List Char

/-- View a Lean string literal as a `Str`. -/
def str (s : String) : Str := s.data

/-- Python bytes objects (the in-memory image payloads); the contents are
irrelevant to every claim, only their presence or absence matters. -/
abbrev Bytes := List Nat

/-- Python `s[-n:]`: the final `n` code points of `s` (all of `s` when
`s` is shorter than `n`). -/
def pyLast (n : Nat) (s : Str) : Str := s.drop (s.length - n)

/-- Python `pat in s`: substring containment. -/
def pyContains (s pat : Str) : Bool :=
  (List.range (s.length + 1)).any (fun i => pat.isPrefixOf (s.drop i))

/-- The whitespace code points removed by Python `str.strip()` (restricted to
the ASCII range; every character the proofs below inspect is ASCII). -/
def isPyWs (c : Char) : Bool :=
  c == ' ' || c == '\t' || c == '\n' || c == '\r' || c == '\x0b' || c == '\x0c'

/-- Python `s.strip()`: remove leading and trailing whitespace. -/
def pyStrip (s : Str) : Str :=
  ((s.dropWhile isPyWs).reverse.dropWhile isPyWs).reverse

/-- Python `s.lower()` (restricted to the ASCII range, which covers every
character the proofs below inspect). -/
def pyLower (s : Str) : Str := s.map Char.toLower

/-- For `re.sub(r"<.*?>", "", raw)`: starting just after a `<`, find the first
`>` (a match may not cross a newline, since `.` does not match `\n`), and
return the remainder after that `>`. -/
def findGt : Str → Option Str
  | [] => none
  | c :: rest =>
    if c = '>' then some rest
    else if c = '\n' then none
    else findGt rest

/-- Scan for `re.sub(r"<.*?>", "", raw)`: at each position try to match a
non-greedy `<...>` tag; on a match drop it and continue after it, otherwise
keep the character and move one position right.  The fuel argument is the
length of the list, which bounds the number of scan steps. -/
def stripTagsAux : Nat → Str → Str
  | 0, cs => cs
  | _ + 1, [] => []
  | fuel + 1, c :: rest =>
    if c = '<' then
      match findGt rest with
      | some rest' => stripTagsAux fuel rest'
      | none => c :: stripTagsAux fuel rest
    else c :: stripTagsAux fuel rest

/-- `re.sub(r"<.*?>", "", raw)`. -/
def stripTags (s : Str) : Str := stripTagsAux s.length s

/-- The named character references recognised by this model of
`html.unescape` (a subset of the HTML5 table; every string fed to
`clean_html` in the theorems below is ampersand-free, where `html.unescape`
is the identity, exactly as in CPython). -/
def entityMap : List (Str × Char) :=
  [(str "amp", '&'), (str "lt", '<'), (str "gt", '>'), (str "quot", '"')]

/-- Digits of a decimal numeric character reference to a code point. -/
def digitsToNat (ds : Str) : Nat :=
  ds.foldl (fun a c => a * 10 + (c.toNat - 48)) 0

/-- Decode the body of one `&...;` reference, when recognised. -/
def decodeEntity (body : Str) : Option Char :=
  match body with
  | '#' :: ds =>
    if ds ≠ [] ∧ ds.all Char.isDigit then some (Char.ofNat (digitsToNat ds))
    else none
  | _ => (entityMap.find? (fun p => p.1 == body)).map (fun p => p.2)

/-- After a `&`, try to read a `name;` reference; return the decoded
character and the remainder after the `;`. -/
def parseEntity (rest : Str) : Option (Char × Str) :=
  let body := rest.takeWhile (fun c => c ≠ ';')
  if (rest.drop body.length).head? = some ';' then
    (decodeEntity body).map (fun ch => (ch, rest.drop (body.length + 1)))
  else none

/-- Scan for `html.unescape`: replace each recognised `&...;` reference,
leave everything else unchanged.  Fuel-bounded by the string length. -/
def unescapeAux : Nat → Str → Str
  | 0, cs => cs
  | _ + 1, [] => []
  | fuel + 1, c :: rest =>
    if c = '&' then
      match parseEntity rest with
      | some (ch, rest') => ch :: unescapeAux fuel rest'
      | none => c :: unescapeAux fuel rest
    else c :: unescapeAux fuel rest

/-- `html.unescape` (subset model, see `entityMap`). -/
def unescape (s : Str) : Str := unescapeAux s.length s

/-- `clean_html` from `src/bot.py`: strip `<...>` tags, then decode HTML
entities. -/
def clean_html (raw : Str) : Str := unescape (stripTags raw)

/-- A news topic as produced by `fetch_trending_topics`: the `title` and
`description` fields of one RSS item. -/
structure Topic where
  title : Str
  description : Str
deriving DecidableEq

/-- The fixed list of intro phrases (`intros` in `create_tweet_text`). -/
def intros : List Str :=
  [str "🔥 Breaking Khabar!",
   str "📰 Aaj Ki Taaza Update!",
   str "📢 Trending News Alert!",
   str "⚡ Fact Check This!",
   str "🚨 Big Update!"]

/-- The fixed list of hashtags (`hashtags` in `create_tweet_text`). -/
def hashtags : List Str :=
  [str "#Trending", str "#IndiaNews", str "#Breaking",
   str "#LatestUpdate", str "#TopStory", str "#InShorts"]

/-- The random draws consumed by one call of `create_tweet_text`:
`random.choice(intros)` yields the element at `introIdx`, and
`random.sample(hashtags, 3)` yields the elements at the three pairwise
distinct positions `tagA`, `tagB`, `tagC` (sampling without replacement
guarantees distinct positions). -/
structure ComposeRand where
  introIdx : Fin intros.length
  tagA : Fin hashtags.length
  tagB : Fin hashtags.length
  tagC : Fin hashtags.length
  hAB : tagA ≠ tagB
  hAC : tagA ≠ tagC
  hBC : tagB ≠ tagC

/-- `random.sample(hashtags, 3)` under the draw `r`. -/
def sampleTags (r : ComposeRand) : List Str :=
  [hashtags.get r.tagA, hashtags.get r.tagB, hashtags.get r.tagC]

/-- `" ".join(random.sample(hashtags, 3))`. -/
def tag_string (r : ComposeRand) : Str :=
  List.intercalate (str " ") (sampleTags r)

/-- `str(int(time.time()))` for the clock value `ts`. -/
def timestampStr (ts : Nat) : Str := (Nat.repr ts).data

/-- The assembled pre-truncation post text:
`intro \n\n arrow title \n\n description \n\n hashtags \n\n timestamp`. -/
def assembled (intro title description tags : Str) (ts : Nat) : Str :=
  intro ++ str "\n\n👉 " ++ title ++ str "\n\n" ++ description ++ str "\n\n"
    ++ tags ++ str "\n\n⏳ " ++ timestampStr ts

/-- `create_tweet_text` from `src/bot.py`.  The global set
`previous_titles` is passed in (as a duplicate-free list) and the updated
set is returned next to the result; `r` carries the random draws and `ts`
the current Unix time. -/
def create_tweet_text (seen : List Str) (r : ComposeRand) (ts : Nat)
    (topic : Topic) : Option Str × List Str :=
  let title := clean_html topic.title
  let description := clean_html topic.description
  let description :=
    if ((pyLower title).take 20).isPrefixOf (pyLower description) then []
    else description
  if title ∈ seen then (none, seen)
  else
    let seen := title :: seen
    let intro := intros.get r.introIdx
    let tweet := intro ++ str "\n\n👉 " ++ title ++ str "\n\n" ++ description
      ++ str "\n\n" ++ tag_string r
    let tweet := tweet ++ str "\n\n⏳ " ++ timestampStr ts
    (some (pyLast 275 tweet), seen)

/-- The Bing image-search URL built by `search_image_bing` (the query with
spaces replaced by `+`, spliced into the fixed URL template). -/
def bing_url (query : Str) : Str :=
  str "https://www.bing.com/images/search?q="
    ++ query.map (fun c => if c = ' ' then '+' else c)
    ++ str "&form=HDRSC2"

/-- The literal part of the pattern `murl&quot;:&quot;(.*?)&quot;` before the
capture group. -/
def murlPre : Str := str "murl&quot;:&quot;"

/-- The literal part of the pattern after the capture group. -/
def quotTok : Str := str "&quot;"

/-- Starting inside a match of the `murl` pattern, take the minimal capture
up to the next `&quot;` (the non-greedy `(.*?)`; `.` does not cross a
newline); return the capture and the remainder after the closing token. -/
def captureUntilQuot : Str → Option (Str × Str)
  | [] => none
  | c :: rest =>
    if quotTok.isPrefixOf (c :: rest) then some ([], (c :: rest).drop quotTok.length)
    else if c = '\n' then none
    else
      match captureUntilQuot rest with
      | some (cap, rest') => some (c :: cap, rest')
      | none => none

/-- `re.findall(r"murl&quot;:&quot;(.*?)&quot;", html)`: scan left to right,
emit each non-overlapping capture, continue after each match.  Fuel-bounded
by the string length. -/
def findAllMurlAux : Nat → Str → List Str
  | 0, _ => []
  | _ + 1, [] => []
  | fuel + 1, c :: rest =>
    if murlPre.isPrefixOf (c :: rest) then
      match captureUntilQuot ((c :: rest).drop murlPre.length) with
      | some (cap, rest') => cap :: findAllMurlAux fuel rest'
      | none => findAllMurlAux fuel rest
    else findAllMurlAux fuel rest

/-- All captures of the `murl` pattern in `html`. -/
def findAllMurl (html : Str) : List Str := findAllMurlAux html.length html

/-- `search_image_bing` from `src/bot.py`.  `httpGet` is the outcome of
`requests.get` on the URL it is given: either the page text or a raised
exception message.  Any exception is swallowed and mapped to `none`;
otherwise the first regex match (if any) is returned. -/
def search_image_bing (httpGet : Str → Except Str Str) (query : Str) :
    Option Str :=
  match httpGet (bing_url query) with
  | .error _ => none
  | .ok html => (findAllMurl html).head?

/-- `download_image_memory` from `src/bot.py`.  `httpGet` is the outcome of
`requests.get(url, timeout=10)`: either `(status_code, content)` or a raised
exception message.  Exceptions are swallowed; only a 200 status yields the
body. -/
def download_image_memory (httpGet : Str → Except Str (Nat × Bytes))
    (url : Str) : Option Bytes :=
  match httpGet url with
  | .error _ => none
  | .ok (status, body) => if status = 200 then some body else none

/-- `upload_image_memory` from `src/bot.py`.  `mediaUpload` is the outcome
of `api_v1.media_upload`: either the `media_id_string` or a raised exception
message, which is swallowed and mapped to `none`. -/
def upload_image_memory (mediaUpload : Bytes → Except Str Str)
    (img : Bytes) : Option Str :=
  match mediaUpload img with
  | .error _ => none
  | .ok mid => some mid

/-- `random.randint(a, b)` (both endpoints included), as a function of an
arbitrary draw `seed`; every value of the inclusive range is reached by some
seed. -/
def randint (a b seed : Nat) : Nat := a + seed % (b - a + 1)

/-- The external inputs consumed by one iteration of the `run_bot` loop
body: the random draws, the clock, the three image-pipeline collaborators
and the outcome of `client.create_tweet`. -/
structure CycleOracle where
  pickSeed : Nat
  rand : ComposeRand
  ts : Nat
  bingGet : Str → Except Str Str
  imageGet : Str → Except Str (Nat × Bytes)
  mediaUpload : Bytes → Except Str Str
  publish : Except Str Unit
  successSeed : Nat
  fallbackSeed : Nat

/-- How far one cycle got: no topics fetched, tweet skipped (null or empty
composition), or `client.create_tweet` called with the given text and
optional media id. -/
inductive Attempt where
  | noTopics
  | skipped
  | attempted (text : Str) (media : Option Str)
deriving DecidableEq

/-- The observable outcome of one cycle: what was attempted, the duration
passed to `time.sleep` before the next cycle, and the updated
`previous_titles` state.  Every branch of the loop body produces such a
result — no branch propagates an error or terminates the loop. -/
structure CycleResult where
  attempt : Attempt
  sleep : Nat
  seen : List Str
deriving DecidableEq

/-- `random.choice(topics)` for a non-empty topic batch: the element at
position `pickSeed % topics.length` (the index is in range, so the `getD`
default is never consulted). -/
def pickTopic (t : Topic) (rest : List Topic) (pickSeed : Nat) : Topic :=
  (t :: rest).getD (pickSeed % (t :: rest).length) t

/-- The image block of the loop body (`image_url` / `img_bytes` /
`media_id` in `src/bot.py`): search for an image URL, download it, upload
it; each step falls through to `None` on failure. -/
def media_for (o : CycleOracle) (topic : Topic) : Option Str :=
  match search_image_bing o.bingGet topic.title with
  | none => none
  | some url =>
    match download_image_memory o.imageGet url with
    | none => none
    | some img_bytes => upload_image_memory o.mediaUpload img_bytes

/-- The publish step and its `except` classifier from `run_bot`: on success
sleep `randint(4500, 9000)`; on an error whose message contains "429" sleep
7200; otherwise, if it contains "403" sleep 300; otherwise sleep
`randint(1800, 3600)`.  Every branch continues the loop. -/
def publish_result (o : CycleOracle) (tweet_text : Str)
    (media_id : Option Str) (seen' : List Str) : CycleResult :=
  match o.publish with
  | .ok _ =>
    ⟨.attempted tweet_text media_id, randint 4500 9000 o.successSeed, seen'⟩
  | .error e =>
    if pyContains e (str "429") then
      ⟨.attempted tweet_text media_id, 7200, seen'⟩
    else if pyContains e (str "403") then
      ⟨.attempted tweet_text media_id, 300, seen'⟩
    else
      ⟨.attempted tweet_text media_id, randint 1800 3600 o.fallbackSeed, seen'⟩

/-- One iteration of the `while True` body of `run_bot` from `src/bot.py`,
as a pure function of the fetched topics, the oracle and the current
`previous_titles` state.  The `interval` parameter of `run_bot` is passed
through exactly as in the source (where it is never read). -/
def run_bot_cycle (interval : Nat) (topics : List Topic) (o : CycleOracle)
    (seen : List Str) : CycleResult :=
  match topics with
  | [] => ⟨.noTopics, 120, seen⟩
  | t :: rest =>
    let topic := pickTopic t rest o.pickSeed
    match create_tweet_text seen o.rand o.ts topic with
    | (none, seen') => ⟨.skipped, 60, seen'⟩
    | (some tweet_text, seen') =>
      if pyStrip tweet_text = [] then ⟨.skipped, 60, seen'⟩
      else publish_result o tweet_text (media_for o topic) seen'

/-- The stream of external inputs for a whole run: the fetched topics and
the oracle of each cycle. -/
structure Env where
  topics : Nat → List Topic
  oracle : Nat → CycleOracle

/-- The `previous_titles` state after `n` iterations of `run_bot` (the set
starts empty at process start). -/
def run_bot_seen (interval : Nat) (env : Env) : Nat → List Str
  | 0 => []
  | n + 1 =>
    (run_bot_cycle interval (env.topics n) (env.oracle n)
      (run_bot_seen interval env n)).seen

/-- The description component that actually enters the assembled text: the
cleaned description, discarded when its lowercase form starts with the first
20 characters of the lowercase cleaned title. -/
def descAfter (topic : Topic) : Str :=
  if ((pyLower (clean_html topic.title)).take 20).isPrefixOf
      (pyLower (clean_html topic.description)) then []
  else clean_html topic.description

/-- A fixed choice of random draws for concrete evaluations. -/
def rand0 : ComposeRand :=
  ⟨⟨0, by decide⟩, ⟨0, by decide⟩, ⟨1, by decide⟩, ⟨2, by decide⟩,
   by decide, by decide, by decide⟩

/-- A concrete markup-free topic. -/
def topicA : Topic := ⟨str "Alpha", str "Beta gamma"⟩

/-- A concrete topic whose title carries HTML markup. -/
def topicTagged : Topic := ⟨str "<b>Alpha</b>", str "Beta gamma"⟩

/-- The draft composed from `topicA` on an empty seen-set. -/
def draftA : Str := ((create_tweet_text [] rand0 0 topicA).1).getD []

/-- An always-failing page fetch. -/
def errGet : Str → Except Str Str := fun _ => .error (str "connection error")

/-- An always-failing image download. -/
def errImgGet : Str → Except Str (Nat × Bytes) := fun _ => .error (str "timeout")

/-- An always-failing media upload. -/
def errUpload : Bytes → Except Str Str := fun _ => .error (str "upload failed")

/-- A concrete cycle oracle whose publish call succeeds (and whose image
pipeline fails at the search step). -/
def oracleOk : CycleOracle :=
  ⟨0, rand0, 0, errGet, errImgGet, errUpload, .ok (), 0, 0⟩

/-- A concrete cycle oracle whose publish call raises a rate-limit error. -/
def oracle429 : CycleOracle :=
  ⟨0, rand0, 0, errGet, errImgGet, errUpload,
   .error (str "429 Too Many Requests"), 0, 0⟩

/-- A concrete cycle oracle whose publish call raises a forbidden error. -/
def oracle403 : CycleOracle :=
  ⟨0, rand0, 0, errGet, errImgGet, errUpload,
   .error (str "403 Forbidden"), 0, 0⟩

/-- A concrete cycle oracle whose publish error message mentions both status
codes 403 and 429. -/
def oracleBoth : CycleOracle :=
  ⟨0, rand0, 0, errGet, errImgGet, errUpload,
   .error (str "403 Forbidden after 429 retry"), 0, 0⟩

/-! ### String-level helper lemmas -/

theorem length_pyLast (n : Nat) (s : Str) : (pyLast n s).length ≤ n := by
  simp only [pyLast, List.length_drop]
  omega

theorem suffix_pyLast (a b : Str) (n : Nat) (h : b.length ≤ n) :
    b <:+ pyLast n (a ++ b) := by
  simp only [pyLast, List.length_append]
  rw [List.drop_append_of_le_length (by omega)]
  exact ⟨a.drop (a.length + b.length - n), rfl⟩

theorem pyLast_ne_nil (n : Nat) (s : Str) (hn : 0 < n) (hs : s ≠ []) :
    pyLast n s ≠ [] := by
  simp only [pyLast, ne_eq, List.drop_eq_nil_iff]
  have : 0 < s.length := List.length_pos.mpr hs
  omega

theorem pyLast_getLast? (n : Nat) (s : Str) (h : pyLast n s ≠ []) :
    (pyLast n s).getLast? = s.getLast? := by
  obtain ⟨t, ht⟩ : pyLast n s <:+ s := List.drop_suffix _ s
  conv_rhs => rw [← ht]
  rw [List.getLast?_append_of_ne_nil t h]

theorem isPyWs_of_isDigit (c : Char) (h : c.isDigit = true) :
    isPyWs c = false := by
  cases hw : isPyWs c with
  | false => rfl
  | true =>
    simp only [isPyWs, Bool.or_eq_true, beq_iff_eq] at hw
    rcases hw with ((((rfl | rfl) | rfl) | rfl) | rfl) | rfl <;> simp at h

theorem pyStrip_ne_nil (s : Str) (c : Char) (hc : s.getLast? = some c)
    (hw : isPyWs c = false) : pyStrip s ≠ [] := by
  intro hnil
  simp only [pyStrip, List.reverse_eq_nil_iff, List.dropWhile_eq_nil_iff,
    List.mem_reverse] at hnil
  have hmem : c ∈ s := by
    obtain ⟨h1, h2⟩ := List.mem_getLast?_eq_getLast (l := s) (x := c) (by simp [hc])
    exact h2 ▸ List.getLast_mem h1
  have hsplit := List.takeWhile_append_dropWhile isPyWs s
  rw [← hsplit] at hmem
  rcases List.mem_append.mp hmem with hmem | hmem
  · exact absurd (List.mem_takeWhile_imp hmem) (by simp [hw])
  · exact absurd (hnil c hmem) (by simp [hw])

/-! ### Decimal representation of the timestamp -/

theorem toDigitsCore_getLast? (b : Nat) :
    ∀ (f n : Nat) (ds : Str) (c : Char), ds.getLast? = some c →
      (Nat.toDigitsCore b f n ds).getLast? = some c := by
  intro f
  induction f with
  | zero => intro n ds c h; simpa [Nat.toDigitsCore] using h
  | succ f ih =>
    intro n ds c h
    simp only [Nat.toDigitsCore]
    split
    · cases ds with
      | nil => simp at h
      | cons d ds => rw [List.getLast?_cons_cons]; exact h
    · apply ih
      cases ds with
      | nil => simp at h
      | cons d ds => rw [List.getLast?_cons_cons]; exact h

theorem digitChar_isDigit : ∀ m, m < 10 → (Nat.digitChar m).isDigit = true := by
  decide

theorem timestampStr_getLast? (ts : Nat) :
    ∃ c, (timestampStr ts).getLast? = some c ∧ c.isDigit = true := by
  refine ⟨Nat.digitChar (ts % 10), ?_, digitChar_isDigit _ (Nat.mod_lt _ (by omega))⟩
  show (Nat.toDigits 10 ts).getLast? = some (Nat.digitChar (ts % 10))
  unfold Nat.toDigits
  simp only [Nat.toDigitsCore]
  split
  · rfl
  · exact toDigitsCore_getLast? 10 _ _ _ _ rfl

theorem timestampStr_ne_nil (ts : Nat) : timestampStr ts ≠ [] := by
  obtain ⟨c, hc, _⟩ := timestampStr_getLast? ts
  intro h
  rw [h] at hc
  simp at hc

/-! ### Characterisation of the composer -/

theorem create_dup (seen : List Str) (r : ComposeRand) (ts : Nat) (topic : Topic)
    (h : clean_html topic.title ∈ seen) :
    create_tweet_text seen r ts topic = (none, seen) := by
  unfold create_tweet_text
  simp [h]

theorem create_fresh (seen : List Str) (r : ComposeRand) (ts : Nat) (topic : Topic)
    (h : clean_html topic.title ∉ seen) :
    create_tweet_text seen r ts topic =
      (some (pyLast 275 (assembled (intros.get r.introIdx) (clean_html topic.title)
        (descAfter topic) (tag_string r) ts)),
       clean_html topic.title :: seen) := by
  unfold create_tweet_text descAfter assembled
  simp [h]

theorem create_some_inv (seen : List Str) (r : ComposeRand) (ts : Nat)
    (topic : Topic) (d : Str) (s' : List Str)
    (h : create_tweet_text seen r ts topic = (some d, s')) :
    clean_html topic.title ∉ seen ∧
      d = pyLast 275 (assembled (intros.get r.introIdx) (clean_html topic.title)
        (descAfter topic) (tag_string r) ts) ∧
      s' = clean_html topic.title :: seen := by
  by_cases hm : clean_html topic.title ∈ seen
  · rw [create_dup seen r ts topic hm] at h
    simp at h
  · rw [create_fresh seen r ts topic hm] at h
    obtain ⟨h1, h2⟩ := Prod.mk.injEq .. ▸ h
    exact ⟨hm, (Option.some.injEq .. ▸ h1).symm, h2.symm⟩

/-! ### Hashtag facts -/

theorem hashtags_nodup : hashtags.Nodup := by decide

theorem tag_string_eq (r : ComposeRand) :
    tag_string r = hashtags.get r.tagA ++ str " " ++ hashtags.get r.tagB
      ++ str " " ++ hashtags.get r.tagC := by
  simp [tag_string, sampleTags, List.intercalate, List.intersperse,
    List.append_assoc]

theorem tag_length_le : ∀ i : Fin hashtags.length, (hashtags.get i).length ≤ 13 := by
  decide

theorem tag_string_length (r : ComposeRand) : (tag_string r).length ≤ 41 := by
  rw [tag_string_eq]
  simp only [List.length_append]
  have ha := tag_length_le r.tagA
  have hb := tag_length_le r.tagB
  have hc := tag_length_le r.tagC
  simp only [str, List.length_cons, List.length_nil]
  omega

theorem tags_distinct (r : ComposeRand) :
    hashtags.get r.tagA ≠ hashtags.get r.tagB ∧
    hashtags.get r.tagA ≠ hashtags.get r.tagC ∧
    hashtags.get r.tagB ≠ hashtags.get r.tagC := by
  have hinj := List.nodup_iff_injective_get.mp hashtags_nodup
  exact ⟨fun h => r.hAB (hinj h), fun h => r.hAC (hinj h), fun h => r.hBC (hinj h)⟩

/-! ### Structure of the assembled text -/

theorem assembled_tail (intro title description tags : Str) (ts : Nat) :
    assembled intro title description tags ts =
      (intro ++ str "\n\n👉 " ++ title ++ str "\n\n" ++ description
        ++ str "\n\n") ++ (tags ++ str "\n\n⏳ " ++ timestampStr ts) := by
  simp [assembled, List.append_assoc]

theorem draft_tail (seen : List Str) (r : ComposeRand) (ts : Nat)
    (topic : Topic) (d : Str) (s' : List Str)
    (h : create_tweet_text seen r ts topic = (some d, s'))
    (hts : (timestampStr ts).length ≤ 230) :
    (tag_string r ++ str "\n\n⏳ " ++ timestampStr ts) <:+ d := by
  obtain ⟨-, hd, -⟩ := create_some_inv seen r ts topic d s' h
  rw [hd, assembled_tail]
  apply suffix_pyLast
  have := tag_string_length r
  simp only [List.length_append, str, List.length_cons, List.length_nil]
  omega

/-! ### Characterisation of one loop cycle -/

theorem getD_mem {α : Type} {l : List α} {k : Nat} {d : α} (hd : d ∈ l) :
    l.getD k d ∈ l := by
  rw [List.getD_eq_getElem?_getD]
  cases h : l[k]? with
  | none => simp [hd]
  | some a =>
    obtain ⟨hlt, he⟩ := List.getElem?_eq_some_iff.1 h
    exact Option.getD_some ▸ he ▸ List.getElem_mem hlt

theorem publish_result_attempt (o : CycleOracle) (tt : Str)
    (mid : Option Str) (s' : List Str) :
    (publish_result o tt mid s').attempt = .attempted tt mid := by
  unfold publish_result
  cases o.publish with
  | ok u => rfl
  | error e =>
    by_cases h429 : pyContains e (str "429") = true
    · simp [h429]
    · by_cases h403 : pyContains e (str "403") = true
      · simp [h429, h403]
      · simp [h429, h403]

theorem publish_result_seen (o : CycleOracle) (tt : Str)
    (mid : Option Str) (s' : List Str) :
    (publish_result o tt mid s').seen = s' := by
  unfold publish_result
  cases o.publish with
  | ok u => rfl
  | error e =>
    by_cases h429 : pyContains e (str "429") = true
    · simp [h429]
    · by_cases h403 : pyContains e (str "403") = true
      · simp [h429, h403]
      · simp [h429, h403]

theorem publish_result_sleep_ok (o : CycleOracle) (tt : Str)
    (mid : Option Str) (s' : List Str) (u : Unit) (h : o.publish = .ok u) :
    (publish_result o tt mid s').sleep = randint 4500 9000 o.successSeed := by
  unfold publish_result
  rw [h]

theorem publish_result_sleep_429 (o : CycleOracle) (tt : Str)
    (mid : Option Str) (s' : List Str) (e : Str) (h : o.publish = .error e)
    (h429 : pyContains e (str "429") = true) :
    (publish_result o tt mid s').sleep = 7200 := by
  unfold publish_result
  rw [h]
  simp [h429]

theorem publish_result_sleep_403 (o : CycleOracle) (tt : Str)
    (mid : Option Str) (s' : List Str) (e : Str) (h : o.publish = .error e)
    (h429 : pyContains e (str "429") = false)
    (h403 : pyContains e (str "403") = true) :
    (publish_result o tt mid s').sleep = 300 := by
  unfold publish_result
  rw [h]
  simp [h429, h403]

theorem cycle_cases (i : Nat) (t0 : Topic) (rest : List Topic)
    (o : CycleOracle) (seen : List Str) :
    run_bot_cycle i (t0 :: rest) o seen =
      (match create_tweet_text seen o.rand o.ts (pickTopic t0 rest o.pickSeed) with
       | (none, seen') => ⟨.skipped, 60, seen'⟩
       | (some tt, seen') =>
         if pyStrip tt = [] then ⟨.skipped, 60, seen'⟩
         else publish_result o tt (media_for o (pickTopic t0 rest o.pickSeed)) seen') := rfl

theorem cycle_attempted_inv (i : Nat) (topics : List Topic) (o : CycleOracle)
    (seen : List Str) (t : Str) (m : Option Str)
    (hA : (run_bot_cycle i topics o seen).attempt = .attempted t m) :
    ∃ t0 rest seen', topics = t0 :: rest ∧
      create_tweet_text seen o.rand o.ts (pickTopic t0 rest o.pickSeed) =
        (some t, seen') ∧
      pyStrip t ≠ [] ∧
      m = media_for o (pickTopic t0 rest o.pickSeed) ∧
      run_bot_cycle i topics o seen = publish_result o t m seen' := by
  cases topics with
  | nil => simp [run_bot_cycle] at hA
  | cons t0 rest =>
    rw [cycle_cases] at hA
    split at hA
    next seen2 heq => simp at hA
    next tt seen2 heq =>
      split at hA
      next hs => simp at hA
      next hs =>
        rw [publish_result_attempt] at hA
        obtain ⟨h1, h2⟩ := Attempt.attempted.injEq .. ▸ hA
        subst h1
        subst h2
        refine ⟨t0, rest, seen2, rfl, heq, hs, rfl, ?_⟩
        rw [cycle_cases, heq]
        simp [hs]

theorem create_strip_ne_nil (seen : List Str) (r : ComposeRand) (ts : Nat)
    (topic : Topic) (d : Str) (s' : List Str)
    (h : create_tweet_text seen r ts topic = (some d, s')) :
    d ≠ [] ∧ pyStrip d ≠ [] := by
  obtain ⟨-, hd, -⟩ := create_some_inv seen r ts topic d s' h
  obtain ⟨c, hc, hdig⟩ := timestampStr_getLast? ts
  have hTne := timestampStr_ne_nil ts
  have hAT : (assembled (intros.get r.introIdx) (clean_html topic.title)
      (descAfter topic) (tag_string r) ts) =
      (intros.get r.introIdx ++ str "\n\n👉 " ++ clean_html topic.title
        ++ str "\n\n" ++ descAfter topic ++ str "\n\n" ++ tag_string r
        ++ str "\n\n⏳ ") ++ timestampStr ts := by
    simp [assembled, List.append_assoc]
  have hne : assembled (intros.get r.introIdx) (clean_html topic.title)
      (descAfter topic) (tag_string r) ts ≠ [] := by
    rw [hAT]
    simp [hTne]
  have hdne : d ≠ [] := by
    rw [hd]
    exact pyLast_ne_nil 275 _ (by omega) hne
  refine ⟨hdne, ?_⟩
  have hlast : d.getLast? = some c := by
    rw [hd, pyLast_getLast? 275 _ (hd ▸ hdne), hAT,
      List.getLast?_append_of_ne_nil _ hTne, hc]
  exact pyStrip_ne_nil d c hlast (isPyWs_of_isDigit c hdig)

theorem create_none_inv (seen : List Str) (r : ComposeRand) (ts : Nat)
    (topic : Topic) (s' : List Str)
    (h : create_tweet_text seen r ts topic = (none, s')) :
    s' = seen ∧ clean_html topic.title ∈ seen := by
  by_cases hm : clean_html topic.title ∈ seen
  · rw [create_dup seen r ts topic hm] at h
    exact ⟨(Prod.mk.injEq .. ▸ h).2.symm, hm⟩
  · rw [create_fresh seen r ts topic hm] at h
    simp at h

theorem cycle_seen_cases (i : Nat) (topics : List Topic) (o : CycleOracle)
    (seen : List Str) :
    (run_bot_cycle i topics o seen).seen = seen ∨
      ∃ t, t ∉ seen ∧ (run_bot_cycle i topics o seen).seen = t :: seen := by
  cases topics with
  | nil => exact Or.inl rfl
  | cons t0 rest =>
    rw [cycle_cases]
    split
    next seen2 heq =>
      obtain ⟨h1, -⟩ := create_none_inv seen o.rand o.ts _ seen2 heq
      exact Or.inl h1
    next tt seen2 heq =>
      obtain ⟨hm, -, h2⟩ := create_some_inv seen o.rand o.ts _ tt seen2 heq
      refine Or.inr ⟨clean_html (pickTopic t0 rest o.pickSeed).title, hm, ?_⟩
      split
      · exact h2
      · rw [publish_result_seen]
        exact h2

theorem cycle_skipped_inv (i : Nat) (topics : List Topic) (o : CycleOracle)
    (seen : List Str)
    (hA : (run_bot_cycle i topics o seen).attempt = .skipped) :
    ∃ topic ∈ topics, (create_tweet_text seen o.rand o.ts topic).1 = none := by
  cases topics with
  | nil => simp [run_bot_cycle] at hA
  | cons t0 rest =>
    rw [cycle_cases] at hA
    split at hA
    next seen2 heq =>
      refine ⟨pickTopic t0 rest o.pickSeed, ?_, by rw [heq]⟩
      exact getD_mem (List.mem_cons_self t0 rest)
    next tt seen2 heq =>
      split at hA
      next hs =>
        exact absurd hs (create_strip_ne_nil seen o.rand o.ts _ tt seen2 heq).2
      next hs =>
        rw [publish_result_attempt] at hA
        simp at hA

theorem media_for_none_of_fail (o : CycleOracle) (topic : Topic)
    (h : (∀ u, ∃ m, o.bingGet u = .error m) ∨
         (∀ u, ∃ m, o.imageGet u = .error m) ∨
         (∀ b, ∃ m, o.mediaUpload b = .error m)) :
    media_for o topic = none := by
  rcases h with h | h | h
  · obtain ⟨m, hm⟩ := h (bing_url topic.title)
    simp [media_for, search_image_bing, hm]
  · unfold media_for
    cases hs : search_image_bing o.bingGet topic.title with
    | none => rfl
    | some url =>
      obtain ⟨m, hm⟩ := h url
      simp [download_image_memory, hm]
  · unfold media_for
    cases hs : search_image_bing o.bingGet topic.title with
    | none => rfl
    | some url =>
      cases hdl : download_image_memory o.imageGet url with
      | none => simp [hdl]
      | some b =>
        obtain ⟨m, hm⟩ := h b
        simp [hdl, upload_image_memory, hm]

/-! ### Claims -/

/-- Claim C1 (counterexample): duplicate tracking is NOT keyed on the
topic's raw title.  For a topic whose title carries markup, the title is
already in the seen-set, yet `compose` returns a non-null draft and changes
the set (it inserts the cleaned title instead). -/
theorem C1_counterexample :
    topicTagged.title ∈ [str "<b>Alpha</b>"] ∧
    (create_tweet_text [str "<b>Alpha</b>"] rand0 0 topicTagged).1 ≠ none ∧
    (create_tweet_text [str "<b>Alpha</b>"] rand0 0 topicTagged).2 ≠
      [str "<b>Alpha</b>"] := by decide

/-- Claim C1 (amended): duplicate tracking is keyed on the cleaned title
`clean_html(topic.title)`.  If the cleaned title is already in the seen-set,
compose returns null and leaves the set unchanged; otherwise it inserts the
cleaned title (this insertion happens inside compose, before the caller can
discard the draft downstream). -/
theorem C1_dedup_keyed_on_cleaned_title (seen : List Str) (r : ComposeRand)
    (ts : Nat) (topic : Topic) :
    (clean_html topic.title ∈ seen →
      create_tweet_text seen r ts topic = (none, seen)) ∧
    (clean_html topic.title ∉ seen →
      ∃ d, create_tweet_text seen r ts topic =
        (some d, clean_html topic.title :: seen)) := by
  constructor
  · intro hm
    exact create_dup seen r ts topic hm
  · intro hm
    exact ⟨_, create_fresh seen r ts topic hm⟩

/-- Claim C1 witness: with a clean title, a duplicate is rejected with the
set unchanged, and a fresh title is composed with the cleaned title
inserted. -/
theorem C1_witness :
    create_tweet_text [str "Alpha"] rand0 0 topicA = (none, [str "Alpha"]) ∧
    ∃ d, create_tweet_text [] rand0 0 topicA = (some d, [str "Alpha"]) := by
  constructor
  · exact (C1_dedup_keyed_on_cleaned_title [str "Alpha"] rand0 0 topicA).1
      (by decide)
  · have h := (C1_dedup_keyed_on_cleaned_title [] rand0 0 topicA).2 (by decide)
    simpa using h

/-- Claim C2: every non-null draft equals the final (at most) 275 characters
of the assembled string
`intro \n\n arrow title \n\n description \n\n hashtags \n\n timestamp`,
hence has length at most 275; and (for any timestamp of at most 230 digits,
which covers every real clock value) the trailing hashtags-and-timestamp
block survives truncation as a suffix of the draft. -/
theorem C2_draft_truncation (seen : List Str) (r : ComposeRand) (ts : Nat)
    (topic : Topic) (d : Str) (s' : List Str)
    (h : create_tweet_text seen r ts topic = (some d, s'))
    (hts : (timestampStr ts).length ≤ 230) :
    ∃ desc, (desc = clean_html topic.description ∨ desc = []) ∧
      d = pyLast 275 (assembled (intros.get r.introIdx)
        (clean_html topic.title) desc (tag_string r) ts) ∧
      d.length ≤ 275 ∧
      (tag_string r ++ str "\n\n⏳ " ++ timestampStr ts) <:+ d := by
  obtain ⟨-, hd, -⟩ := create_some_inv seen r ts topic d s' h
  refine ⟨descAfter topic, ?_, hd, ?_, draft_tail seen r ts topic d s' h hts⟩
  · unfold descAfter
    split
    · exact Or.inr rfl
    · exact Or.inl rfl
  · rw [hd]
    exact length_pyLast 275 _

/-- Claim C2 witness: the concrete draft for `topicA` satisfies the
truncation contract. -/
theorem C2_witness :
    ∃ desc, (desc = clean_html topicA.description ∨ desc = []) ∧
      draftA = pyLast 275 (assembled (intros.get rand0.introIdx)
        (clean_html topicA.title) desc (tag_string rand0) 0) ∧
      draftA.length ≤ 275 ∧
      (tag_string rand0 ++ str "\n\n⏳ " ++ timestampStr 0) <:+ draftA :=
  C2_draft_truncation [] rand0 0 topicA draftA
    ((create_tweet_text [] rand0 0 topicA).2) (by decide) (by decide)

/-- Claim C3: after a successful publish, the loop sleeps
`random.randint(4500, 9000)` seconds — a value always within 4500..9000
inclusive, and every duration in that inclusive range is reached by some
draw (uniform sampling over the integer range). -/
theorem C3_success_sleep (i : Nat) (topics : List Topic) (o : CycleOracle)
    (seen : List Str) (t : Str) (m : Option Str) (u : Unit)
    (hA : (run_bot_cycle i topics o seen).attempt = .attempted t m)
    (hP : o.publish = .ok u) :
    (run_bot_cycle i topics o seen).sleep = randint 4500 9000 o.successSeed ∧
    4500 ≤ (run_bot_cycle i topics o seen).sleep ∧
    (run_bot_cycle i topics o seen).sleep ≤ 9000 ∧
    ∀ v, 4500 ≤ v → v ≤ 9000 → ∃ s2, randint 4500 9000 s2 = v := by
  obtain ⟨t0, rest, seen', -, -, -, -, hrun⟩ :=
    cycle_attempted_inv i topics o seen t m hA
  rw [hrun, publish_result_sleep_ok o t m seen' u hP]
  refine ⟨rfl, ?_, ?_, ?_⟩
  · unfold randint
    omega
  · unfold randint
    omega
  · intro v h1 h2
    exact ⟨v - 4500, by unfold randint; omega⟩

/-- Claim C3 witness: a concrete successful cycle sleeps within the range. -/
theorem C3_witness :
    (run_bot_cycle 3600 [topicA] oracleOk []).sleep =
      randint 4500 9000 oracleOk.successSeed ∧
    4500 ≤ (run_bot_cycle 3600 [topicA] oracleOk []).sleep ∧
    (run_bot_cycle 3600 [topicA] oracleOk []).sleep ≤ 9000 ∧
    ∀ v, 4500 ≤ v → v ≤ 9000 → ∃ s2, randint 4500 9000 s2 = v :=
  C3_success_sleep 3600 [topicA] oracleOk [] draftA none ()
    (by decide) rfl

/-- Claim C4: when the publish call fails with a message containing "429",
the loop sleeps exactly 7200 seconds; the error is absorbed into an
ordinary cycle result (the step function is total), so nothing propagates
and the loop resumes. -/
theorem C4_rate_limit_sleep (i : Nat) (topics : List Topic) (o : CycleOracle)
    (seen : List Str) (t : Str) (m : Option Str) (e : Str)
    (hA : (run_bot_cycle i topics o seen).attempt = .attempted t m)
    (hP : o.publish = .error e)
    (h429 : pyContains e (str "429") = true) :
    (run_bot_cycle i topics o seen).sleep = 7200 := by
  obtain ⟨t0, rest, seen', -, -, -, -, hrun⟩ :=
    cycle_attempted_inv i topics o seen t m hA
  rw [hrun, publish_result_sleep_429 o t m seen' e hP h429]

/-- Claim C4 witness: a concrete rate-limited cycle sleeps 7200 seconds. -/
theorem C4_witness : (run_bot_cycle 3600 [topicA] oracle429 []).sleep = 7200 :=
  C4_rate_limit_sleep 3600 [topicA] oracle429 [] draftA none
    (str "429 Too Many Requests") (by decide) rfl (by decide)

/-- Claim C5 (counterexample): a publish failure whose message contains
"403" does not always sleep 300 seconds — when the message also contains
"429", the rate-limit branch fires first and the loop sleeps 7200
seconds. -/
theorem C5_counterexample :
    oracleBoth.publish = Except.error (str "403 Forbidden after 429 retry") ∧
    pyContains (str "403 Forbidden after 429 retry") (str "403") = true ∧
    (run_bot_cycle 3600 [topicA] oracleBoth []).attempt =
      .attempted draftA none ∧
    (run_bot_cycle 3600 [topicA] oracleBoth []).sleep ≠ 300 :=
  ⟨rfl, by decide, by decide, by decide⟩

/-- Claim C5 (amended): when the publish call fails with a message that
contains "403" and does not contain "429" (the 429 check runs first), the
loop sleeps exactly 300 seconds and resumes. -/
theorem C5_forbidden_sleep (i : Nat) (topics : List Topic) (o : CycleOracle)
    (seen : List Str) (t : Str) (m : Option Str) (e : Str)
    (hA : (run_bot_cycle i topics o seen).attempt = .attempted t m)
    (hP : o.publish = .error e)
    (h429 : pyContains e (str "429") = false)
    (h403 : pyContains e (str "403") = true) :
    (run_bot_cycle i topics o seen).sleep = 300 := by
  obtain ⟨t0, rest, seen', -, -, -, -, hrun⟩ :=
    cycle_attempted_inv i topics o seen t m hA
  rw [hrun, publish_result_sleep_403 o t m seen' e hP h429 h403]

/-- Claim C5 witness: a concrete forbidden-only failure sleeps 300
seconds. -/
theorem C5_witness : (run_bot_cycle 3600 [topicA] oracle403 []).sleep = 300 :=
  C5_forbidden_sleep 3600 [topicA] oracle403 [] draftA none
    (str "403 Forbidden") (by decide) rfl (by decide) (by decide)

/-- Claim C6: every failure in the illustration pipeline is swallowed into
`none` — a raised exception in the image search, the image download or the
media upload yields `none` from the corresponding wrapper — and a cycle
whose image pipeline fails at any of the three steps still reaches the
publish step with the text and no media: the attempt is never blocked, it is
made with `media = none`. -/
theorem C6_image_failure_harmless :
    (∀ (g : Str → Except Str Str) (q m : Str),
      g (bing_url q) = .error m → search_image_bing g q = none) ∧
    (∀ (g : Str → Except Str (Nat × Bytes)) (u m : Str),
      g u = .error m → download_image_memory g u = none) ∧
    (∀ (g : Bytes → Except Str Str) (b : Bytes) (m : Str),
      g b = .error m → upload_image_memory g b = none) ∧
    (∀ (i : Nat) (topics : List Topic) (o : CycleOracle) (seen : List Str),
      ((∀ u, ∃ m, o.bingGet u = .error m) ∨
       (∀ u, ∃ m, o.imageGet u = .error m) ∨
       (∀ b, ∃ m, o.mediaUpload b = .error m)) →
      (run_bot_cycle i topics o seen).attempt = .noTopics ∨
      (run_bot_cycle i topics o seen).attempt = .skipped ∨
      ∃ t, (run_bot_cycle i topics o seen).attempt = .attempted t none) := by
  refine ⟨?_, ?_, ?_, ?_⟩
  · intro g q m hg
    simp [search_image_bing, hg]
  · intro g u m hg
    simp [download_image_memory, hg]
  · intro g b m hg
    simp [upload_image_memory, hg]
  · intro i topics o seen hfail
    rcases hA : (run_bot_cycle i topics o seen).attempt with _ | _ | ⟨t, m⟩
    · exact Or.inl rfl
    · exact Or.inr (Or.inl rfl)
    · refine Or.inr (Or.inr ⟨t, ?_⟩)
      obtain ⟨t0, rest, seen', -, -, -, hm, -⟩ :=
        cycle_attempted_inv i topics o seen t m hA
      rw [hm, media_for_none_of_fail o _ hfail]

/-- Claim C6 witness: concrete failing collaborators yield `none` at each of
the three wrappers, and a concrete cycle whose image search always fails
still attempts the post without media. -/
theorem C6_witness :
    search_image_bing errGet (str "Alpha") = none ∧
    download_image_memory errImgGet (str "http://x/y.jpg") = none ∧
    upload_image_memory errUpload [7] = none ∧
    ((run_bot_cycle 3600 [topicA] oracleOk []).attempt = .noTopics ∨
     (run_bot_cycle 3600 [topicA] oracleOk []).attempt = .skipped ∨
     ∃ t, (run_bot_cycle 3600 [topicA] oracleOk []).attempt =
       .attempted t none) :=
  ⟨C6_image_failure_harmless.1 errGet (str "Alpha")
      (str "connection error") rfl,
   C6_image_failure_harmless.2.1 errImgGet (str "http://x/y.jpg")
      (str "timeout") rfl,
   C6_image_failure_harmless.2.2.1 errUpload [7] (str "upload failed") rfl,
   C6_image_failure_harmless.2.2.2 3600 [topicA] oracleOk []
      (Or.inl fun _ => ⟨str "connection error", rfl⟩)⟩

/-- Claim C7: every non-null draft carries exactly three hashtags, pairwise
distinct (sampled without replacement), each from the fixed six-element tag
set, joined by single spaces; and (for any timestamp of at most 230 digits)
that three-tag block occurs inside the returned draft. -/
theorem C7_three_distinct_hashtags (r : ComposeRand) (seen : List Str)
    (ts : Nat) (topic : Topic) (d : Str) (s' : List Str)
    (h : create_tweet_text seen r ts topic = (some d, s'))
    (hts : (timestampStr ts).length ≤ 230) :
    ∃ t1 t2 t3, sampleTags r = [t1, t2, t3] ∧
      tag_string r = t1 ++ str " " ++ t2 ++ str " " ++ t3 ∧
      t1 ∈ hashtags ∧ t2 ∈ hashtags ∧ t3 ∈ hashtags ∧
      t1 ≠ t2 ∧ t1 ≠ t3 ∧ t2 ≠ t3 ∧
      ∃ u v, d = u ++ tag_string r ++ v := by
  obtain ⟨h12, h13, h23⟩ := tags_distinct r
  refine ⟨hashtags.get r.tagA, hashtags.get r.tagB, hashtags.get r.tagC,
    rfl, tag_string_eq r,
    List.get_mem hashtags r.tagA.1 r.tagA.2,
    List.get_mem hashtags r.tagB.1 r.tagB.2,
    List.get_mem hashtags r.tagC.1 r.tagC.2,
    h12, h13, h23, ?_⟩
  obtain ⟨u, hu⟩ := draft_tail seen r ts topic d s' h hts
  exact ⟨u, str "\n\n⏳ " ++ timestampStr ts, by rw [← hu]; simp [List.append_assoc]⟩

/-- Claim C7 witness: the concrete draft for `topicA` contains its three
distinct sampled hashtags. -/
theorem C7_witness :
    ∃ t1 t2 t3, sampleTags rand0 = [t1, t2, t3] ∧
      tag_string rand0 = t1 ++ str " " ++ t2 ++ str " " ++ t3 ∧
      t1 ∈ hashtags ∧ t2 ∈ hashtags ∧ t3 ∈ hashtags ∧
      t1 ≠ t2 ∧ t1 ≠ t3 ∧ t2 ≠ t3 ∧
      ∃ u v, draftA = u ++ tag_string rand0 ++ v :=
  C7_three_distinct_hashtags rand0 [] 0 topicA draftA
    ((create_tweet_text [] rand0 0 topicA).2) (by decide) (by decide)

/-- Claim C8: the seen-titles set grows monotonically.  A compose call
either leaves the set unchanged or pushes one title not previously in it; a
whole loop cycle does the same; and over a run, each state is a suffix of
the next (titles are never removed, and a present title is never pushed
again). -/
theorem C8_seen_monotone :
    (∀ (seen : List Str) (r : ComposeRand) (ts : Nat) (topic : Topic),
      (create_tweet_text seen r ts topic).2 = seen ∨
      ∃ t, t ∉ seen ∧ (create_tweet_text seen r ts topic).2 = t :: seen) ∧
    (∀ (i : Nat) (topics : List Topic) (o : CycleOracle) (seen : List Str),
      (run_bot_cycle i topics o seen).seen = seen ∨
      ∃ t, t ∉ seen ∧ (run_bot_cycle i topics o seen).seen = t :: seen) ∧
    (∀ (i : Nat) (env : Env) (n : Nat),
      ∃ pre, run_bot_seen i env (n + 1) = pre ++ run_bot_seen i env n) := by
  refine ⟨?_, cycle_seen_cases, ?_⟩
  · intro seen r ts topic
    by_cases hm : clean_html topic.title ∈ seen
    · rw [create_dup seen r ts topic hm]
      exact Or.inl rfl
    · rw [create_fresh seen r ts topic hm]
      exact Or.inr ⟨clean_html topic.title, hm, rfl⟩
  · intro i env n
    rcases cycle_seen_cases i (env.topics n) (env.oracle n)
        (run_bot_seen i env n) with h | ⟨t, -, h⟩
    · exact ⟨[], by rw [run_bot_seen, h, List.nil_append]⟩
    · exact ⟨[t], by rw [run_bot_seen, h]; rfl⟩

/-- Claim C9: the `interval` argument of `run_bot` never influences
behaviour — two runs with different intervals but the same inputs and
random draws produce identical cycle results and identical seen-state
traces. -/
theorem C9_interval_unused :
    (∀ (i1 i2 : Nat) (topics : List Topic) (o : CycleOracle) (seen : List Str),
      run_bot_cycle i1 topics o seen = run_bot_cycle i2 topics o seen) ∧
    (∀ (i1 i2 : Nat) (env : Env) (n : Nat),
      run_bot_seen i1 env n = run_bot_seen i2 env n) := by
  refine ⟨fun i1 i2 topics o seen => rfl, ?_⟩
  intro i1 i2 env n
  induction n with
  | zero => rfl
  | succ n ih =>
    rw [run_bot_seen, run_bot_seen, ih]
    rfl

/-- Claim C10: a non-null draft is never empty nor whitespace-only (it ends
with a decimal digit of the timestamp), so the loop's defensive
empty-string skip is unreachable for non-null compositions: a cycle is
skipped only when the chosen topic composes to null. -/
theorem C10_draft_never_empty :
    (∀ (seen : List Str) (r : ComposeRand) (ts : Nat) (topic : Topic)
        (d : Str) (s' : List Str),
      create_tweet_text seen r ts topic = (some d, s') →
      d ≠ [] ∧ pyStrip d ≠ []) ∧
    (∀ (i : Nat) (topics : List Topic) (o : CycleOracle) (seen : List Str),
      (run_bot_cycle i topics o seen).attempt = .skipped →
      ∃ topic ∈ topics, (create_tweet_text seen o.rand o.ts topic).1 = none) :=
  ⟨create_strip_ne_nil, cycle_skipped_inv⟩

/-- Claim C10 witness: the concrete draft for `topicA` is neither empty nor
whitespace-only, and a concrete skipped cycle (duplicate title) indeed comes
from a null composition. -/
theorem C10_witness :
    (draftA ≠ [] ∧ pyStrip draftA ≠ []) ∧
    ∃ topic ∈ [topicA],
      (create_tweet_text [str "Alpha"] oracleOk.rand oracleOk.ts topic).1 =
        none :=
  ⟨C10_draft_never_empty.1 [] rand0 0 topicA draftA
      ((create_tweet_text [] rand0 0 topicA).2) (by decide),
   C10_draft_never_empty.2 3600 [topicA] oracleOk [str "Alpha"] (by decide)⟩
